import Mathlib

/-!
Verification of the Tool Routing & Remote Capability Connection Layer.

Shallow embedding of the routing/registry/client code:
`src/utils/toolRouter.ts`, `src/utils/enhancedMCPToolExecutor.ts`,
`src/utils/mcpClient.ts`, `src/utils/standardMCPClient.ts`,
`src/utils/websocketMCPClient.ts`, `src/utils/mcpConnector.ts`.

Pure functions are translated directly; stateful and asynchronous code is
embedded as explicit state-passing step functions whose atomic segments are
the synchronous stretches between `await` points (the JavaScript event loop
runs each such stretch without interleaving).  Definitions come first,
theorems follow.
-/

namespace Zhcj

/-- `ToolCall` from `src/types`: one invocation request.  `id` is the
caller-supplied `tool_call_id`; `name`/`args` are `function.name` and
`function.arguments`. -/
structure ToolCall where
  id : String
  name : String
  args : String
deriving DecidableEq, Repr

/-- The JSON object serialized into a `ToolResult.content` string.  Each
producer fills a subset of these fields; absent fields are `none`
(the serialization of this record in the source is injective on the
fields used, so the record stands for the JSON string). -/
structure RContent where
  success : Bool
  content : Option String := none
  error : Option String := none
  toolName : Option String := none
  toolType : Option String := none
  transport : Option String := none
  serverName : Option String := none
  executionTime : Option Nat := none
deriving DecidableEq, Repr

/-- `ToolResult` from `src/types`: `{ tool_call_id, role: 'tool', content }`. -/
structure ToolResult where
  tool_call_id : String
  role : String := "tool"
  content : RContent
deriving DecidableEq, Repr

/-- JS `Map.set`-then-`get` semantics of the id-keyed result map built in
`sortResultsByOriginalOrder`: `results.forEach(r => map.set(r.tool_call_id, r))`
followed by `map.get(k)` yields the last result whose `tool_call_id` is `k`. -/
def resultMapGet (results : List ToolResult) (k : String) : Option ToolResult :=
  results.foldl (fun acc r => if r.tool_call_id = k then some r else acc) none

namespace ToolRouter

/-- `ToolMetadata` from `src/utils/toolRouter.ts`. -/
inductive ToolKind | localTool | mcpTool
deriving DecidableEq, Repr

structure ToolMetadata where
  kind : ToolKind
  serverName : Option String := none
deriving DecidableEq, Repr

/-- The synthetic "result missing" failure substituted by
`ToolRouter.sortResultsByOriginalOrder` (toolRouter.ts lines 108-117) for an
input id the executors produced no result for. -/
def missingResult (call : ToolCall) : ToolResult :=
  { tool_call_id := call.id
    role := "tool"
    content := { success := false, error := some "工具执行结果丢失",
                 toolName := some call.name } }

/-- `ToolRouter.sortResultsByOriginalOrder` (toolRouter.ts lines 103-118):
build the id-keyed result map, then walk the original call list emitting the
mapped result or the synthetic missing-result failure. -/
def sortResultsByOriginalOrder (toolCalls : List ToolCall)
    (results : List ToolResult) : List ToolResult :=
  toolCalls.map fun call => (resultMapGet results call.id).getD (missingResult call)

/-- Partition predicate of `ToolRouter.executeTools` (lines 42-50): calls whose
metadata says `mcp` go to the MCP executor, everything else (including names
with no metadata at all) to the local executor. -/
def isMcpCall (metadata : String → Option ToolMetadata) (call : ToolCall) : Bool :=
  match metadata call.name with
  | some m => m.kind = ToolKind.mcpTool
  | none => false

/-- `ToolRouter.executeTools` (lines 33-76), parameterized by the two executor
batch functions (their network behavior is opaque to the router): partition by
metadata, run both groups, concatenate local results before MCP results
(the order the execution promises are pushed), then reassemble in input
order. -/
def executeTools (metadata : String → Option ToolMetadata)
    (localExec mcpExec : List ToolCall → List ToolResult)
    (toolCalls : List ToolCall) : List ToolResult :=
  let localCalls := toolCalls.filter (fun c => ¬ isMcpCall metadata c)
  let mcpCalls := toolCalls.filter (fun c => isMcpCall metadata c)
  let results := localExec localCalls ++ mcpExec mcpCalls
  sortResultsByOriginalOrder toolCalls results

/-- The combined result list `executeTools` feeds into the reassembly step. -/
def combinedResults (metadata : String → Option ToolMetadata)
    (localExec mcpExec : List ToolCall → List ToolResult)
    (toolCalls : List ToolCall) : List ToolResult :=
  localExec (toolCalls.filter (fun c => ¬ isMcpCall metadata c))
    ++ mcpExec (toolCalls.filter (fun c => isMcpCall metadata c))

end ToolRouter

namespace EnhancedMCPToolExecutor

/-- The synthetic "result missing" failure of
`EnhancedMCPToolExecutor.sortResultsByOriginalOrder` (enhancedMCPToolExecutor.ts
lines 307-316); identical to the router's except for the `toolType` tag. -/
def missingResult (call : ToolCall) : ToolResult :=
  { tool_call_id := call.id
    role := "tool"
    content := { success := false, error := some "工具执行结果丢失",
                 toolName := some call.name, toolType := some "mcp" } }

/-- `EnhancedMCPToolExecutor.sortResultsByOriginalOrder` (lines 302-318):
the same id-keyed reassembly as the router's. -/
def sortResultsByOriginalOrder (toolCalls : List ToolCall)
    (results : List ToolResult) : List ToolResult :=
  toolCalls.map fun call => (resultMapGet results call.id).getD (missingResult call)

/-- `private batchSize = 5` (line 16). -/
def batchSize : Nat := 5

/-- The sub-batching loop of `executeServerTools` (lines 252-257):
`for (let i = 0; i < toolCalls.length; i += batchSize)` slices consecutive
chunks of at most `n` calls.  (`setBatchSize` clamps the size to ≥ 1; a zero
step would not terminate in the source either, so the `n = 0` branch is
returned empty here and excluded by hypothesis in the theorems.) -/
def chunked {α : Type} (n : Nat) (l : List α) : List (List α) :=
  match l with
  | [] => []
  | x :: xs =>
      if n = 0 then []
      else (x :: xs).take n :: chunked n ((x :: xs).drop n)
termination_by l.length
decreasing_by
  simp only [List.length_drop, List.length_cons]
  omega

/-- The per-server execution (lines 252-259), parameterized by the single-call
executor: each chunk is dispatched as one `Promise.all` batch and awaited
before the next chunk starts; results are pushed chunk by chunk. -/
def executeServerToolsBatches (n : Nat) (exec : ToolCall → ToolResult)
    (toolCalls : List ToolCall) : List (List ToolResult) :=
  (chunked n toolCalls).map (fun batch => batch.map exec)

/-- The flat result list the per-server execution returns. -/
def executeServerToolsResults (n : Nat) (exec : ToolCall → ToolResult)
    (toolCalls : List ToolCall) : List ToolResult :=
  (executeServerToolsBatches n exec toolCalls).flatten

/-- One `initialize()` call of `EnhancedMCPToolExecutor` (lines 18-34) split
into its two atomic segments.  First segment: `getStartupServers()` and the
`servers.map(async ...)` spawning — one connection attempt per startup server
starts immediately, with no guard flag consulted. -/
def initSpawn (numServers : Nat) (s : Nat × Bool) : Nat × Bool :=
  (s.1 + numServers, s.2)

/-- Second segment, after `await Promise.allSettled`: set `isInitialized`. -/
def initFinish (s : Nat × Bool) : Nat × Bool :=
  (s.1, true)

end EnhancedMCPToolExecutor

/-- `MCPTool` descriptor (`name`, `description`, `inputSchema`); the schema is
carried opaquely as a string. -/
structure MCPTool where
  name : String
  description : String
  schema : String
deriving DecidableEq, Repr

/-- `MCPCallResult` as defined identically in `mcpClient.ts`,
`standardMCPClient.ts` and `websocketMCPClient.ts`; `content` carries the
response payload opaquely. -/
structure MCPCallResult where
  success : Bool
  content : Option String := none
  error : Option String := none
  toolName : String
  serverName : String
  executionTime : Nat
deriving DecidableEq, Repr

/-- Connection states of `websocketMCPClient.ts` (enum `ConnectionState`). -/
inductive ConnState
  | disconnected | connecting | initializing | connected | reconnecting | error
deriving DecidableEq, Repr

/-- The enum's string value, used in thrown not-connected messages. -/
def ConnState.str : ConnState → String
  | .disconnected => "disconnected"
  | .connecting => "connecting"
  | .initializing => "initializing"
  | .connected => "connected"
  | .reconnecting => "reconnecting"
  | .error => "error"

namespace MCPClient

/-- `MCPClient.callTool` (mcpClient.ts lines 111-145), as a function of the
outcome of `sendRequest` (`.ok` carries `response.result`, `.error` carries the
thrown error's message).  The whole body sits in try/catch, so the function is
total: every outcome yields a structured `MCPCallResult`. -/
def callTool (toolName serverName : String)
    (outcome : Except String (Option String)) (elapsed : Nat) : MCPCallResult :=
  match outcome with
  | .ok result =>
      { success := true, content := result, toolName, serverName,
        executionTime := elapsed }
  | .error msg =>
      { success := false, error := some msg, toolName, serverName,
        executionTime := elapsed }

/-- `MCPClient.listTools` (mcpClient.ts lines 101-109): no connection-state
check at all — the `tools/list` request is issued unconditionally (first
component counts issued requests), whatever the health flag says. -/
def listTools ( _isHealthy : Bool) (outcome : Except String (List MCPTool)) :
    Nat × Except String (List MCPTool) :=
  (1, outcome)

end MCPClient

namespace StandardMCPClient

/-- `StandardMCPClient.callTool` (standardMCPClient.ts lines 90-122): same
try/catch conversion as `MCPClient.callTool`. -/
def callTool (toolName serverName : String)
    (outcome : Except String (Option String)) (elapsed : Nat) : MCPCallResult :=
  match outcome with
  | .ok result =>
      { success := true, content := result, toolName, serverName,
        executionTime := elapsed }
  | .error msg =>
      { success := false, error := some msg, toolName, serverName,
        executionTime := elapsed }

/-- `StandardMCPClient.listTools` (lines 71-85): throws "未初始化" before
issuing any request unless `isInitialized`. -/
def listTools (isInitialized : Bool) (outcome : Except String (List MCPTool)) :
    Nat × Except String (List MCPTool) :=
  if isInitialized then (1, outcome) else (0, Except.error "MCP客户端未初始化")

/-- One line of an SSE response body, classified the way
`handleSSEResponse` (lines 192-236) inspects it after splitting on newlines. -/
inductive SSELine
  /-- line does not start with the `data: ` marker -/
  | notData
  /-- payload empty or the `[DONE]` sentinel -/
  | emptyOrDone
  /-- `JSON.parse` throws -/
  | malformed
  /-- parses to an object with an `error` field carrying message `msg` -/
  | errorFrag (msg : String)
  /-- parses to an object with a `result` field (and no `error` field) -/
  | resultFrag (v : String)
  /-- parses to an object with neither `result` nor `error` -/
  | otherJson
deriving DecidableEq, Repr

/-- `StandardMCPClient.handleSSEResponse` (lines 192-236).  The faithful point:
on an `error` fragment the code executes
`throw new Error('MCP错误: ' + parsed.error.message)` *inside* the same
`try { JSON.parse ... }` whose `catch (e)` only logs a warning — so the throw
is swallowed and scanning continues; only a `result` fragment resolves the
call, and stream end raises the generic no-result error. -/
def handleSSEResponse : List SSELine → Except String String
  | [] => Except.error "SSE响应中未找到有效结果"
  | SSELine.resultFrag v :: _ => Except.ok v
  | _ :: rest => handleSSEResponse rest

/-- `callTool` over an `HTTPStream` (SSE) response: `sendRequest` resolves via
`handleSSEResponse`, and the catch in `callTool` converts a thrown error into
a failure result. -/
def callToolSSE (toolName serverName : String) (lines : List SSELine)
    (elapsed : Nat) : MCPCallResult :=
  match handleSSEResponse lines with
  | .ok v =>
      { success := true, content := some v, toolName, serverName,
        executionTime := elapsed }
  | .error msg =>
      { success := false, error := some msg, toolName, serverName,
        executionTime := elapsed }

end StandardMCPClient

namespace WebSocketMCPClient

/-- `WebSocketMCPClient.callTool` (websocketMCPClient.ts lines 364-400): the
not-connected check sits inside the try, so every path resolves to a
structured result. -/
def callTool (state : ConnState) (toolName serverName : String)
    (outcome : Except String String) (elapsed : Nat) : MCPCallResult :=
  if state = ConnState.connected then
    match outcome with
    | .ok response =>
        { success := true, content := some response, toolName, serverName,
          executionTime := elapsed }
    | .error msg =>
        { success := false, error := some msg, toolName, serverName,
          executionTime := elapsed }
  else
    { success := false,
      error := some ("MCP客户端未连接，状态: " ++ state.str),
      toolName, serverName, executionTime := elapsed }

/-- `WebSocketMCPClient.listTools` (lines 345-359): throws the not-connected
error before issuing `tools/list` unless the state is `connected`. -/
def listTools (state : ConnState) (outcome : Except String (List MCPTool)) :
    Nat × Except String (List MCPTool) :=
  if state = ConnState.connected then (1, outcome)
  else (0, Except.error ("MCP客户端未连接，状态: " ++ state.str))

/-- Program counter of one in-flight `connect()` call (lines 59-103), one
constructor per synchronous segment between `await` points. -/
inductive ConnectPC
  /-- about to run the guard (lines 60-68) and the synchronous prefix up to
  `await this.waitForConnection()` -/
  | start
  /-- suspended in `waitForConnection`; resumes with the socket-open result -/
  | awaitWsOpen
  /-- `performMCPHandshake` has set `INITIALIZING` and sent `initialize`;
  suspended awaiting the response -/
  | awaitInitResponse
  /-- `connect()` resolved with `r` -/
  | returned (r : Bool)
deriving DecidableEq, Repr

/-- Shared client state touched by `connect()`: the connection state and the
number of `initialize` handshake requests sent so far. -/
structure ConnectSys where
  state : ConnState
  handshakes : Nat
deriving DecidableEq, Repr

/-- One atomic segment of `connect()`.  `wsOpenOk` is the value
`waitForConnection` resumes with; `initOk` is whether the `initialize`
request resolves.  Guard (lines 60-68): `CONNECTED` returns `true`,
`CONNECTING` returns `false`; any other state — including `INITIALIZING` —
falls through and starts a fresh attempt (line 71 sets `CONNECTING`).
A successful socket open enters `performMCPHandshake` (line 199 sets
`INITIALIZING`, line 202 sends `initialize` — counted in `handshakes`). -/
def connectStep (sys : ConnectSys) (pc : ConnectPC) (wsOpenOk initOk : Bool) :
    ConnectSys × ConnectPC :=
  match pc with
  | .start =>
      if sys.state = ConnState.connected then (sys, .returned true)
      else if sys.state = ConnState.connecting then (sys, .returned false)
      else ({ sys with state := ConnState.connecting }, .awaitWsOpen)
  | .awaitWsOpen =>
      if wsOpenOk then
        ({ state := ConnState.initializing, handshakes := sys.handshakes + 1 },
         .awaitInitResponse)
      else ({ sys with state := ConnState.error }, .returned false)
  | .awaitInitResponse =>
      if initOk then ({ sys with state := ConnState.connected }, .returned true)
      else ({ sys with state := ConnState.error }, .returned false)
  | .returned r => (sys, .returned r)

/-- Run two logically-concurrent `connect()` calls under an explicit
event-loop schedule: each entry picks the call to advance (`true` = first)
and the oracle values its segment resumes with. -/
def runSchedule (sys : ConnectSys) (pc₁ pc₂ : ConnectPC) :
    List (Bool × Bool × Bool) → ConnectSys × ConnectPC × ConnectPC
  | [] => (sys, pc₁, pc₂)
  | (first, wsOk, initOk) :: rest =>
      if first then
        let next := connectStep sys pc₁ wsOk initOk
        runSchedule next.1 next.2 pc₂ rest
      else
        let next := connectStep sys pc₂ wsOk initOk
        runSchedule next.1 pc₁ next.2 rest

/-- `MCPConnectionConfig` fields read by the reconnect logic (defaults at
lines 47-53: `reconnectAttempts: 5`, `reconnectDelay: 5000`). -/
structure ReconnCfg where
  reconnectAttempts : Nat
  reconnectDelay : Nat
deriving DecidableEq, Repr

/-- Client state touched by `handleReconnection`: connection state, the
persistent `reconnectAttempt` counter (reset only by a successful
`connect()`), and the delays of the reconnect timers scheduled so far. -/
structure ReconnSys where
  connState : ConnState
  reconnectAttempt : Nat
  scheduled : List Nat
deriving DecidableEq, Repr

/-- `handleReconnection` (lines 434-457): bail out if already `RECONNECTING`;
otherwise enter `RECONNECTING` and clean up; if the attempt counter has
reached `reconnectAttempts`, settle in terminal `ERROR`; else increment the
counter to `k` and schedule a reconnect timer after `reconnectDelay × k`. -/
def handleReconnection (cfg : ReconnCfg) (s : ReconnSys) : ReconnSys :=
  if s.connState = ConnState.reconnecting then s
  else
    let s₁ : ReconnSys := { s with connState := ConnState.reconnecting }
    if cfg.reconnectAttempts ≤ s₁.reconnectAttempt then
      { s₁ with connState := ConnState.error }
    else
      { connState := ConnState.reconnecting,
        reconnectAttempt := s₁.reconnectAttempt + 1,
        scheduled := s₁.scheduled ++ [cfg.reconnectDelay * (s₁.reconnectAttempt + 1)] }

/-- A scheduled timer fires and the `connect()` it runs fails: `connect` from
`RECONNECTING` passes the guard, tries, sets `ERROR` and returns `false`
(lines 95-101), so the callback (lines 451-456) calls `handleReconnection`
again from `ERROR` with counters intact. -/
def failedReconnectRound (cfg : ReconnCfg) (s : ReconnSys) : ReconnSys :=
  handleReconnection cfg { s with connState := ConnState.error }

/-- `n` consecutive failing reconnect rounds. -/
def iterRounds (cfg : ReconnCfg) (s : ReconnSys) : Nat → ReconnSys
  | 0 => s
  | n + 1 => failedReconnectRound cfg (iterRounds cfg s n)

/-- The full all-failures trace: an unexpected closure of a connected client
triggers `handleReconnection`, and every scheduled reconnect attempt fails. -/
def reconnectAllFailTrace (cfg : ReconnCfg) : ReconnSys :=
  iterRounds cfg (handleReconnection cfg ⟨ConnState.connected, 0, []⟩)
    cfg.reconnectAttempts

end WebSocketMCPClient

namespace MCPConnectorSocket

/-- Connection state of the socket-transport `MCPConnector`
(first class in `mcpConnector.ts`, lines 13-69): the `connected` flag, whether
the `connecting` in-flight promise field is set, and how many connection
attempts have been started. -/
structure EnsureState where
  connected : Bool
  connecting : Bool
  attemptsStarted : Nat
deriving DecidableEq, Repr

inductive EnsureOutcome | alreadyConnected | joinedInFlight | startedNew
deriving DecidableEq, Repr

/-- `MCPConnector.ensureConnection` (mcpConnector.ts lines 25-47): return at
once when connected; return the stored in-flight promise when one exists
(joining the first call); otherwise store a fresh promise and start exactly
one new connection attempt.  The promise field is assigned in the same
synchronous segment that starts the attempt, so a concurrent second call
observes it. -/
def ensureConnection (s : EnsureState) : EnsureState × EnsureOutcome :=
  if s.connected then (s, .alreadyConnected)
  else if s.connecting then (s, .joinedInFlight)
  else ({ s with connecting := true, attemptsStarted := s.attemptsStarted + 1 },
        .startedNew)

end MCPConnectorSocket

namespace MCPConnector

/-- One entry of the HTTP `MCPConnector`'s `mcpTools` map
(second class in `mcpConnector.ts`): the tool descriptor plus its owning
server's name. -/
structure ToolEntry where
  tool : MCPTool
  serverName : String
deriving DecidableEq, Repr

/-- Outcome of refreshing one server: `refreshHealth()` came back false, or
`listTools()` threw, or it returned a tool list. -/
inductive RefreshOutcome
  | unhealthy
  | listFailed (msg : String)
  | ok (tools : List MCPTool)
deriving DecidableEq, Repr

/-- The deletion loop of `refreshTools` (lines 247-251): remove every map
entry owned by server `name`. -/
def clearServer (name : String) (m : String → Option ToolEntry) :
    String → Option ToolEntry :=
  fun k =>
    match m k with
    | some e => if e.serverName = name then none else some e
    | none => none

/-- One `this.mcpTools.set(tool.name, {tool, serverName})` call (line 255):
`Map.set` overwrites an existing key even when another server owns it. -/
def setTool (name : String) (acc : String → Option ToolEntry) (t : MCPTool) :
    String → Option ToolEntry :=
  fun k => if k = t.name then some ⟨t, name⟩ else acc k

/-- The single-server body of `MCPConnector.refreshTools` (mcpConnector.ts
lines 232-271), acting on the name-keyed `mcpTools` map: skip on an unhealthy
server (`continue`, map untouched); on a `listTools` throw the catch only
records an error status (map untouched); on success delete every entry owned
by `name`, then `set` each fetched tool in order. -/
def refreshServer (name : String) (outcome : RefreshOutcome)
    (m : String → Option ToolEntry) : String → Option ToolEntry :=
  match outcome with
  | .unhealthy => m
  | .listFailed _ => m
  | .ok tools => tools.foldl (setTool name) (clearServer name m)

end MCPConnector

/-! ## Theorems -/

theorem resultMapGet_foldl_acc (rs : List ToolResult) (k : String)
    (acc : Option ToolResult) :
    rs.foldl (fun a r => if r.tool_call_id = k then some r else a) acc
      = (resultMapGet rs k).elim acc some := by
  induction rs generalizing acc with
  | nil => rfl
  | cons r rs ih =>
    show rs.foldl _ (if r.tool_call_id = k then some r else acc)
      = (resultMapGet (r :: rs) k).elim acc some
    rw [ih]
    show _ = (rs.foldl _ (if r.tool_call_id = k then some r else none)).elim acc some
    rw [ih]
    cases resultMapGet rs k with
    | none => by_cases hk : r.tool_call_id = k <;> simp [hk]
    | some r' => simp

theorem resultMapGet_cons (r : ToolResult) (rs : List ToolResult) (k : String) :
    resultMapGet (r :: rs) k
      = (resultMapGet rs k).elim (if r.tool_call_id = k then some r else none) some := by
  show rs.foldl _ (if r.tool_call_id = k then some r else none) = _
  exact resultMapGet_foldl_acc rs k _

/-- A hit in the result map carries exactly the looked-up id. -/
theorem resultMapGet_id (results : List ToolResult) (k : String) (r : ToolResult)
    (h : resultMapGet results k = some r) : r.tool_call_id = k := by
  induction results with
  | nil => simp [resultMapGet] at h
  | cons r' rs ih =>
    rw [resultMapGet_cons] at h
    cases hrs : resultMapGet rs k with
    | some r'' =>
      rw [hrs] at h
      exact ih (by rw [hrs]; exact congrArg some (Option.some.inj h))
    | none =>
      rw [hrs] at h
      by_cases hk : r'.tool_call_id = k
      · simp only [hk, if_pos rfl, Option.elim] at h
        cases h
        exact hk
      · simp [hk] at h

/-- If no produced result carries id `k`, the map lookup misses. -/
theorem resultMapGet_miss (results : List ToolResult) (k : String)
    (h : ∀ r ∈ results, r.tool_call_id ≠ k) : resultMapGet results k = none := by
  induction results with
  | nil => rfl
  | cons r rs ih =>
    rw [resultMapGet_cons, ih (fun r' hr' => h r' (List.mem_cons_of_mem _ hr'))]
    simp [h r (List.mem_cons_self _ _)]

/-- The lookup returns the last matching result: if `r` matches `k` and nothing
after it does, `r` is the value stored in the map under `k`. -/
theorem resultMapGet_last (rs₁ rs₂ : List ToolResult) (r : ToolResult) (k : String)
    (hr : r.tool_call_id = k) (h₂ : ∀ r' ∈ rs₂, r'.tool_call_id ≠ k) :
    resultMapGet (rs₁ ++ r :: rs₂) k = some r := by
  induction rs₁ with
  | nil =>
    rw [List.nil_append, resultMapGet_cons, resultMapGet_miss rs₂ k h₂]
    simp [hr]
  | cons r' rs ih =>
    rw [List.cons_append, resultMapGet_cons, ih]
    simp

theorem executeTools_eq_sort (metadata : String → Option ToolRouter.ToolMetadata)
    (localExec mcpExec : List ToolCall → List ToolResult) (toolCalls : List ToolCall) :
    ToolRouter.executeTools metadata localExec mcpExec toolCalls
      = ToolRouter.sortResultsByOriginalOrder toolCalls
          (ToolRouter.combinedResults metadata localExec mcpExec toolCalls) := rfl

theorem routerSort_length (toolCalls : List ToolCall) (results : List ToolResult) :
    (ToolRouter.sortResultsByOriginalOrder toolCalls results).length
      = toolCalls.length :=
  List.length_map _ _

theorem routerSort_ids (toolCalls : List ToolCall) (results : List ToolResult) :
    (ToolRouter.sortResultsByOriginalOrder toolCalls results).map (·.tool_call_id)
      = toolCalls.map (·.id) := by
  unfold ToolRouter.sortResultsByOriginalOrder
  rw [List.map_map]
  apply List.map_congr_left
  intro call _
  show ((resultMapGet results call.id).getD (ToolRouter.missingResult call)).tool_call_id
    = call.id
  cases h : resultMapGet results call.id with
  | none => rfl
  | some r => exact resultMapGet_id results call.id r h

theorem routerSort_missing (toolCalls : List ToolCall) (results : List ToolResult)
    (call : ToolCall) (hc : call ∈ toolCalls)
    (h : ∀ r ∈ results, r.tool_call_id ≠ call.id) :
    ToolRouter.missingResult call
      ∈ ToolRouter.sortResultsByOriginalOrder toolCalls results := by
  unfold ToolRouter.sortResultsByOriginalOrder
  have : (resultMapGet results call.id).getD (ToolRouter.missingResult call)
      = ToolRouter.missingResult call := by
    rw [resultMapGet_miss results call.id h]
    rfl
  exact this ▸ List.mem_map_of_mem _ hc

theorem mcpSort_ids (toolCalls : List ToolCall) (results : List ToolResult) :
    (EnhancedMCPToolExecutor.sortResultsByOriginalOrder toolCalls results).map
      (·.tool_call_id) = toolCalls.map (·.id) := by
  unfold EnhancedMCPToolExecutor.sortResultsByOriginalOrder
  rw [List.map_map]
  apply List.map_congr_left
  intro call _
  show ((resultMapGet results call.id).getD
    (EnhancedMCPToolExecutor.missingResult call)).tool_call_id = call.id
  cases h : resultMapGet results call.id with
  | none => rfl
  | some r => exact resultMapGet_id results call.id r h

/-- C1: for every batch of N invocation requests (any metadata table and any
executor behavior, i.e. including unknown capability names), the Router's
batch execution returns exactly N results; the result at each position carries
the `tool_call_id` of the request at the same position; and any request id the
executors produced no result for is filled with the synthetic missing-result
failure rather than dropped.  The same positional-id invariant holds for the
MCP executor's own reassembly step. -/
theorem router_batch_result_invariant
    (metadata : String → Option ToolRouter.ToolMetadata)
    (localExec mcpExec : List ToolCall → List ToolResult)
    (toolCalls : List ToolCall) :
    (ToolRouter.executeTools metadata localExec mcpExec toolCalls).length
        = toolCalls.length
  ∧ (ToolRouter.executeTools metadata localExec mcpExec toolCalls).map
        (·.tool_call_id) = toolCalls.map (·.id)
  ∧ (∀ call ∈ toolCalls,
      (∀ r ∈ ToolRouter.combinedResults metadata localExec mcpExec toolCalls,
          r.tool_call_id ≠ call.id) →
      ToolRouter.missingResult call
        ∈ ToolRouter.executeTools metadata localExec mcpExec toolCalls)
  ∧ ∀ results : List ToolResult,
      (EnhancedMCPToolExecutor.sortResultsByOriginalOrder toolCalls results).map
        (·.tool_call_id) = toolCalls.map (·.id) := by
  refine ⟨routerSort_length _ _, routerSort_ids _ _, ?_, fun results =>
    mcpSort_ids _ _⟩
  intro call hc h
  rw [executeTools_eq_sort]
  exact routerSort_missing _ _ call hc h

/-- Witness for C1 at a concrete one-element batch whose executors produce no
result: exactly one result comes back and it is the synthetic failure. -/
theorem router_batch_result_invariant_witness :
    (ToolRouter.executeTools (fun _ => none) (fun _ => []) (fun _ => [])
        [⟨"1", "get_weather", ""⟩]).length = 1
  ∧ ToolRouter.missingResult ⟨"1", "get_weather", ""⟩
      ∈ ToolRouter.executeTools (fun _ => none) (fun _ => []) (fun _ => [])
        [⟨"1", "get_weather", ""⟩] := by
  have h := router_batch_result_invariant (fun _ => none) (fun _ => [])
    (fun _ => []) [⟨"1", "get_weather", ""⟩]
  exact ⟨h.1, h.2.2.1 ⟨"1", "get_weather", ""⟩ (by simp)
    (by intro r hr; simp [ToolRouter.combinedResults] at hr)⟩

/-- C10: when two positions of a batch carry the same caller-supplied id and
some produced result carries that id, both positions of the reassembled output
receive the identical result — the one stored last in the id-keyed map
(later `Map.set` calls overwrite earlier ones). -/
theorem reassembly_duplicate_ids_last_write_wins :
    (∀ (toolCalls : List ToolCall) (results : List ToolResult) (i j : Nat)
        (theId : String) (r : ToolResult),
      toolCalls[i]?.map ToolCall.id = some theId →
      toolCalls[j]?.map ToolCall.id = some theId →
      resultMapGet results theId = some r →
      (ToolRouter.sortResultsByOriginalOrder toolCalls results)[i]? = some r
        ∧ (ToolRouter.sortResultsByOriginalOrder toolCalls results)[j]? = some r)
  ∧ ∀ (rs₁ rs₂ : List ToolResult) (r : ToolResult) (theId : String),
      r.tool_call_id = theId → (∀ r' ∈ rs₂, r'.tool_call_id ≠ theId) →
      resultMapGet (rs₁ ++ r :: rs₂) theId = some r := by
  constructor
  · intro toolCalls results i j theId r hi hj hr
    have key : ∀ n : Nat, toolCalls[n]?.map ToolCall.id = some theId →
        (ToolRouter.sortResultsByOriginalOrder toolCalls results)[n]? = some r := by
      intro n hn
      obtain ⟨c, hc, hcid⟩ := Option.map_eq_some'.mp hn
      show (toolCalls.map _)[n]? = some r
      rw [List.getElem?_map, hc]
      simp only [Option.map_some']
      rw [hcid, hr]
      rfl
    exact ⟨key i hi, key j hj⟩
  · intro rs₁ rs₂ r theId hr h₂
    exact resultMapGet_last rs₁ rs₂ r theId hr h₂

/-- Witness for C10: duplicate id "7" at positions 0 and 2; both receive the
last-stored result for "7". -/
theorem reassembly_duplicate_ids_last_write_wins_witness :
    (ToolRouter.sortResultsByOriginalOrder
        [⟨"7", "a", ""⟩, ⟨"8", "b", ""⟩, ⟨"7", "c", ""⟩]
        [⟨"7", "tool", {success := true, content := some "first"}⟩,
         ⟨"8", "tool", {success := true, content := some "mid"}⟩,
         ⟨"7", "tool", {success := true, content := some "second"}⟩])[0]?
      = some ⟨"7", "tool", {success := true, content := some "second"}⟩
  ∧ (ToolRouter.sortResultsByOriginalOrder
        [⟨"7", "a", ""⟩, ⟨"8", "b", ""⟩, ⟨"7", "c", ""⟩]
        [⟨"7", "tool", {success := true, content := some "first"}⟩,
         ⟨"8", "tool", {success := true, content := some "mid"}⟩,
         ⟨"7", "tool", {success := true, content := some "second"}⟩])[2]?
      = some ⟨"7", "tool", {success := true, content := some "second"}⟩ := by
  have h := reassembly_duplicate_ids_last_write_wins
  exact h.1 [⟨"7", "a", ""⟩, ⟨"8", "b", ""⟩, ⟨"7", "c", ""⟩]
    [⟨"7", "tool", {success := true, content := some "first"}⟩,
     ⟨"8", "tool", {success := true, content := some "mid"}⟩,
     ⟨"7", "tool", {success := true, content := some "second"}⟩]
    0 2 "7" ⟨"7", "tool", {success := true, content := some "second"}⟩
    (by rfl) (by rfl) (by decide)

/-- C2: for every tool name and arguments, `callTool` never throws — it is a
total function into structured `MCPCallResult` — and on any transport or
protocol failure (an `.error` outcome of the underlying request, or a
not-connected state) it resolves with `success = false` and a descriptive
error message. -/
theorem callTool_never_throws :
    (∀ (tn sn : String) (outcome : Except String (Option String)) (t : Nat),
      (∀ e, outcome = Except.error e →
        (MCPClient.callTool tn sn outcome t).success = false
          ∧ (MCPClient.callTool tn sn outcome t).error = some e)
      ∧ ∀ v, outcome = Except.ok v →
          (MCPClient.callTool tn sn outcome t).success = true)
  ∧ (∀ (tn sn : String) (outcome : Except String (Option String)) (t : Nat),
      (∀ e, outcome = Except.error e →
        (StandardMCPClient.callTool tn sn outcome t).success = false
          ∧ (StandardMCPClient.callTool tn sn outcome t).error = some e)
      ∧ ∀ v, outcome = Except.ok v →
          (StandardMCPClient.callTool tn sn outcome t).success = true)
  ∧ ∀ (st : ConnState) (tn sn : String) (outcome : Except String String) (t : Nat),
      (st ≠ ConnState.connected →
        (WebSocketMCPClient.callTool st tn sn outcome t).success = false
          ∧ (WebSocketMCPClient.callTool st tn sn outcome t).error
              = some ("MCP客户端未连接，状态: " ++ st.str))
      ∧ (∀ e, outcome = Except.error e →
          (WebSocketMCPClient.callTool st tn sn outcome t).success = false
            ∧ (WebSocketMCPClient.callTool st tn sn outcome t).error ≠ none)
      ∧ ∀ v, outcome = Except.ok v → st = ConnState.connected →
          (WebSocketMCPClient.callTool st tn sn outcome t).success = true := by
  refine ⟨fun tn sn outcome t => ⟨?_, ?_⟩, fun tn sn outcome t => ⟨?_, ?_⟩,
    fun st tn sn outcome t => ⟨?_, ?_, ?_⟩⟩
  · intro e he; subst he; exact ⟨rfl, rfl⟩
  · intro v hv; subst hv; rfl
  · intro e he; subst he; exact ⟨rfl, rfl⟩
  · intro v hv; subst hv; rfl
  · intro hst
    simp [WebSocketMCPClient.callTool, hst]
  · intro e he
    subst he
    by_cases hst : st = ConnState.connected <;>
      simp [WebSocketMCPClient.callTool, hst]
  · intro v hv hst
    subst hv; subst hst
    rfl

/-- Witness for C2: a refused transport and a disconnected socket both come
back as structured failures, never as thrown exceptions. -/
theorem callTool_never_throws_witness :
    (MCPClient.callTool "maps_geo" "amap" (Except.error "连接失败") 3).success = false
  ∧ (MCPClient.callTool "maps_geo" "amap" (Except.error "连接失败") 3).error
      = some "连接失败"
  ∧ (WebSocketMCPClient.callTool ConnState.error "t" "s" (Except.ok "v") 1).success
      = false := by
  have h := callTool_never_throws
  refine ⟨(h.1 "maps_geo" "amap" (Except.error "连接失败") 3).1 "连接失败" rfl |>.1,
    (h.1 "maps_geo" "amap" (Except.error "连接失败") 3).1 "连接失败" rfl |>.2,
    ((h.2.2 ConnState.error "t" "s" (Except.ok "v") 1).1 (by decide)).1⟩

/-- C3 (code bug): an SSE stream delivering the JSON-RPC error fragment before
any result fragment does NOT resolve the call with the server's error message.
The `throw` on `parsed.error` sits inside the `try` whose `catch` only logs, so
the fragment is swallowed: the stream keeps being scanned, stream end yields
the generic "no valid result" failure, and a later result fragment even turns
the call into a success. -/
theorem sse_error_fragment_swallowed :
    StandardMCPClient.handleSSEResponse [StandardMCPClient.SSELine.errorFrag "Invalid params"]
        = Except.error "SSE响应中未找到有效结果"
  ∧ StandardMCPClient.handleSSEResponse [StandardMCPClient.SSELine.errorFrag "Invalid params"]
        ≠ Except.error "MCP错误: Invalid params"
  ∧ StandardMCPClient.handleSSEResponse
        [StandardMCPClient.SSELine.errorFrag "Invalid params",
         StandardMCPClient.SSELine.resultFrag "late"]
        = Except.ok "late"
  ∧ (StandardMCPClient.callToolSSE "maps_geo" "amap"
        [StandardMCPClient.SSELine.errorFrag "Invalid params"] 5).error
        = some "SSE响应中未找到有效结果" := by
  refine ⟨rfl, ?_, rfl, rfl⟩
  intro h
  injection h with h'
  exact absurd h' (by decide)

/-- C6 (amended): the WebSocket client's `listTools` fails with the
not-connected error and issues no request whenever its state is not
`connected`; the standard HTTP client's `listTools` fails with the
not-initialized error when not initialized; but the plain-HTTP `MCPClient`'s
`listTools` has no guard at all — it issues `tools/list` unconditionally. -/
theorem listTools_connection_guards :
    (∀ (st : ConnState) (outcome : Except String (List MCPTool)),
      st ≠ ConnState.connected →
      WebSocketMCPClient.listTools st outcome
        = (0, Except.error ("MCP客户端未连接，状态: " ++ st.str)))
  ∧ (∀ outcome : Except String (List MCPTool),
      WebSocketMCPClient.listTools ConnState.connected outcome = (1, outcome))
  ∧ (∀ outcome : Except String (List MCPTool),
      StandardMCPClient.listTools false outcome
        = (0, Except.error "MCP客户端未初始化"))
  ∧ (∀ outcome : Except String (List MCPTool),
      StandardMCPClient.listTools true outcome = (1, outcome))
  ∧ ∀ (h : Bool) (outcome : Except String (List MCPTool)),
      MCPClient.listTools h outcome = (1, outcome) := by
  refine ⟨?_, fun outcome => rfl, fun outcome => rfl, fun outcome => rfl,
    fun h outcome => rfl⟩
  intro st outcome hst
  simp [WebSocketMCPClient.listTools, hst]

/-- Witness for C6's amended statement: a disconnected socket client refuses
the listing without issuing a request. -/
theorem listTools_connection_guards_witness :
    WebSocketMCPClient.listTools ConnState.disconnected (Except.ok [])
      = (0, Except.error "MCP客户端未连接，状态: disconnected") :=
  listTools_connection_guards.1 ConnState.disconnected (Except.ok []) (by decide)

/-- Counterexample for C6 as stated: the plain-HTTP client (`mcpClient.ts`)
issues `tools/list` and succeeds even while its health flag is down — it never
fails with a not-connected error. -/
theorem mcpClient_listTools_unguarded :
    MCPClient.listTools false (Except.ok []) = (1, Except.ok [])
  ∧ ∀ e, (MCPClient.listTools false (Except.ok [])).2 ≠ Except.error e := by
  refine ⟨rfl, ?_⟩
  intro e h
  exact Except.noConfusion h

open EnhancedMCPToolExecutor WebSocketMCPClient MCPConnectorSocket MCPConnector

theorem chunked_flatten {α : Type} (n : Nat) (hn : 0 < n) (l : List α) :
    (chunked n l).flatten = l := by
  have key : ∀ (m : Nat) (l : List α), l.length ≤ m → (chunked n l).flatten = l := by
    intro m
    induction m with
    | zero =>
      intro l hl
      have : l = [] := List.length_eq_zero.mp (Nat.le_zero.mp hl)
      subst this
      simp [chunked]
    | succ m ih =>
      intro l hl
      cases l with
      | nil => simp [chunked]
      | cons x xs =>
        simp only [List.length_cons] at hl
        have hlen : ((x :: xs).drop n).length ≤ m := by
          simp only [List.length_drop, List.length_cons]
          omega
        rw [chunked, if_neg (Nat.pos_iff_ne_zero.mp hn), List.flatten_cons,
          ih _ hlen, List.take_append_drop]
  exact key l.length l le_rfl

theorem chunked_chunks {α : Type} (n : Nat) (hn : 0 < n) (l : List α) :
    ∀ b ∈ chunked n l, b.length ≤ n ∧ b ≠ [] := by
  have key : ∀ (m : Nat) (l : List α), l.length ≤ m →
      ∀ b ∈ chunked n l, b.length ≤ n ∧ b ≠ [] := by
    intro m
    induction m with
    | zero =>
      intro l hl b hb
      have : l = [] := List.length_eq_zero.mp (Nat.le_zero.mp hl)
      subst this
      simp [chunked] at hb
    | succ m ih =>
      intro l hl b hb
      cases l with
      | nil => simp [chunked] at hb
      | cons x xs =>
        simp only [List.length_cons] at hl
        have hlen : ((x :: xs).drop n).length ≤ m := by
          simp only [List.length_drop, List.length_cons]
          omega
        rw [chunked, if_neg (Nat.pos_iff_ne_zero.mp hn)] at hb
        rcases List.mem_cons.mp hb with h | h
        · subst h
          refine ⟨by rw [List.length_take]; exact min_le_left _ _, ?_⟩
          cases n with
          | zero => exact absurd hn (lt_irrefl 0)
          | succ n' => simp
        · exact ih _ hlen b h
  exact fun b hb => key l.length l le_rfl b hb

theorem executeServerToolsResults_eq (n : Nat) (hn : 0 < n)
    (exec : ToolCall → ToolResult) (calls : List ToolCall) :
    executeServerToolsResults n exec calls = calls.map exec := by
  unfold executeServerToolsResults executeServerToolsBatches
  rw [← List.map_flatten, chunked_flatten n hn]

/-- C9: within one remote server's group, execution is sub-batched: the batch
size constant is 5; the chunks are consecutive slices of the group in input
order (their concatenation is the group), each of at most `batchSize` calls —
so at most `batchSize` calls to one server are in flight at a time, the next
chunk being dispatched only after the previous `Promise.all` resolves
(sequential fold over chunks by construction) — and the flattened results are
exactly the per-call results in input order. -/
theorem server_group_sub_batching (n : Nat) (hn : 0 < n)
    (exec : ToolCall → ToolResult) (calls : List ToolCall) :
    batchSize = 5
  ∧ (chunked n calls).flatten = calls
  ∧ (∀ b ∈ chunked n calls, b.length ≤ n ∧ b ≠ [])
  ∧ executeServerToolsBatches n exec calls = (chunked n calls).map (List.map exec)
  ∧ executeServerToolsResults n exec calls = calls.map exec :=
  ⟨rfl, chunked_flatten n hn calls, chunked_chunks n hn calls, rfl,
    executeServerToolsResults_eq n hn exec calls⟩

/-- Witness for C9 at the configured batch size 5 and a seven-call group:
chunks of sizes 5 and 2, results in input order. -/
theorem server_group_sub_batching_witness :
    (chunked batchSize
        [(⟨"1", "a", ""⟩ : ToolCall), ⟨"2", "a", ""⟩, ⟨"3", "a", ""⟩, ⟨"4", "a", ""⟩,
         ⟨"5", "a", ""⟩, ⟨"6", "a", ""⟩, ⟨"7", "a", ""⟩]).flatten
      = [(⟨"1", "a", ""⟩ : ToolCall), ⟨"2", "a", ""⟩, ⟨"3", "a", ""⟩, ⟨"4", "a", ""⟩,
         ⟨"5", "a", ""⟩, ⟨"6", "a", ""⟩, ⟨"7", "a", ""⟩]
  ∧ ∀ b ∈ chunked batchSize
        [(⟨"1", "a", ""⟩ : ToolCall), ⟨"2", "a", ""⟩, ⟨"3", "a", ""⟩, ⟨"4", "a", ""⟩,
         ⟨"5", "a", ""⟩, ⟨"6", "a", ""⟩, ⟨"7", "a", ""⟩], b.length ≤ batchSize ∧ b ≠ [] := by
  have h := server_group_sub_batching batchSize (by decide)
    (fun c => ⟨c.id, "tool", { success := true }⟩)
    [(⟨"1", "a", ""⟩ : ToolCall), ⟨"2", "a", ""⟩, ⟨"3", "a", ""⟩, ⟨"4", "a", ""⟩,
     ⟨"5", "a", ""⟩, ⟨"6", "a", ""⟩, ⟨"7", "a", ""⟩]
  exact ⟨h.2.1, h.2.2.1⟩

/-- Counterexample for C4's concurrency part: the `connect()` guard only
blocks on `CONNECTED`/`CONNECTING`, not on `INITIALIZING`.  Schedule: call 1
runs its guard, its socket opens and it sends `initialize` (state
`INITIALIZING`); call 2 then runs its guard, passes it, opens a second socket
and sends a second `initialize`.  Two handshakes, not exactly one. -/
theorem connect_double_handshake :
    (runSchedule ⟨ConnState.disconnected, 0⟩ ConnectPC.start ConnectPC.start
      [(true, true, true), (true, true, true),
       (false, true, true), (false, true, true)]).1.handshakes = 2
  ∧ ¬ (runSchedule ⟨ConnState.disconnected, 0⟩ ConnectPC.start ConnectPC.start
      [(true, true, true), (true, true, true),
       (false, true, true), (false, true, true)]).1.handshakes = 1 := by
  decide

/-- C4 (amended): `connect()` while `CONNECTED` returns `true` untouched;
while `CONNECTING` it returns `false` without starting an attempt; and two
concurrent `connect()` calls perform exactly one handshake provided the
second call's guard runs while the first is still in its `CONNECTING` window
(before the handshake enters `INITIALIZING`) — the second then resolves
`false`.  (A guard check landing in the `INITIALIZING` window instead starts
a second handshake, see the counterexample.) -/
theorem connect_guard_amended :
    (∀ (sys : ConnectSys) (w i : Bool), sys.state = ConnState.connected →
        connectStep sys ConnectPC.start w i = (sys, ConnectPC.returned true))
  ∧ (∀ (sys : ConnectSys) (w i : Bool), sys.state = ConnState.connecting →
        connectStep sys ConnectPC.start w i = (sys, ConnectPC.returned false))
  ∧ ∀ (a b c d w x y z : Bool),
      (runSchedule ⟨ConnState.disconnected, 0⟩ ConnectPC.start ConnectPC.start
        [(true, a, b), (false, c, d), (true, w, x), (true, y, z)]).1.handshakes ≤ 1
      ∧ (runSchedule ⟨ConnState.disconnected, 0⟩ ConnectPC.start ConnectPC.start
        [(true, a, b), (false, c, d), (true, w, x), (true, y, z)]).2.2
          = ConnectPC.returned false := by
  refine ⟨?_, ?_, by decide⟩
  · intro sys w i h
    simp [connectStep, h]
  · intro sys w i h
    simp [connectStep, h]

/-- Witness for C4's amended statement: the guard at `CONNECTED` and at
`CONNECTING` on a concrete system, and the canonical
guard-inside-`CONNECTING`-window schedule yielding one handshake. -/
theorem connect_guard_amended_witness :
    connectStep ⟨ConnState.connected, 4⟩ ConnectPC.start true true
      = (⟨ConnState.connected, 4⟩, ConnectPC.returned true)
  ∧ connectStep ⟨ConnState.connecting, 4⟩ ConnectPC.start true true
      = (⟨ConnState.connecting, 4⟩, ConnectPC.returned false)
  ∧ (runSchedule ⟨ConnState.disconnected, 0⟩ ConnectPC.start ConnectPC.start
      [(true, true, true), (false, true, true), (true, true, true),
       (true, true, true)]).1.handshakes ≤ 1 :=
  ⟨connect_guard_amended.1 ⟨ConnState.connected, 4⟩ true true rfl,
   connect_guard_amended.2.1 ⟨ConnState.connecting, 4⟩ true true rfl,
   (connect_guard_amended.2.2 true true true true true true true true).1⟩

/-- `handleReconnection` from a non-`RECONNECTING` state with attempts left:
increment the counter and schedule the linear-backoff timer. -/
theorem handleReconnection_sched (cfg : ReconnCfg) (st : ConnState) (a : Nat)
    (sch : List Nat) (hst : st ≠ ConnState.reconnecting)
    (ha : a < cfg.reconnectAttempts) :
    handleReconnection cfg ⟨st, a, sch⟩
      = ⟨ConnState.reconnecting, a + 1, sch ++ [cfg.reconnectDelay * (a + 1)]⟩ := by
  show (if st = ConnState.reconnecting then _ else _) = _
  rw [if_neg hst]
  show (if cfg.reconnectAttempts ≤ a then _ else _) = _
  rw [if_neg (Nat.not_le.mpr ha)]

/-- `handleReconnection` from a non-`RECONNECTING` state with the counter
exhausted: settle in terminal `ERROR`, scheduling nothing. -/
theorem handleReconnection_exhausted (cfg : ReconnCfg) (st : ConnState) (a : Nat)
    (sch : List Nat) (hst : st ≠ ConnState.reconnecting)
    (ha : cfg.reconnectAttempts ≤ a) :
    handleReconnection cfg ⟨st, a, sch⟩ = ⟨ConnState.error, a, sch⟩ := by
  show (if st = ConnState.reconnecting then _ else _) = _
  rw [if_neg hst]
  show (if cfg.reconnectAttempts ≤ a then _ else _) = _
  rw [if_pos ha]

theorem iterRounds_inv (maxA d j : Nat) (hj : j < maxA) :
    iterRounds ⟨maxA, d⟩
      (handleReconnection ⟨maxA, d⟩ ⟨ConnState.connected, 0, []⟩) j
    = ⟨ConnState.reconnecting, j + 1, (List.range (j + 1)).map (fun k => d * (k + 1))⟩ := by
  induction j with
  | zero =>
    show handleReconnection ⟨maxA, d⟩ ⟨ConnState.connected, 0, []⟩ = _
    rw [handleReconnection_sched ⟨maxA, d⟩ ConnState.connected 0 [] (by decide) hj]
    simp [List.range_succ]
  | succ j ih =>
    show failedReconnectRound ⟨maxA, d⟩ (iterRounds _ _ j) = _
    rw [ih (Nat.lt_of_succ_lt hj)]
    show handleReconnection ⟨maxA, d⟩
      ⟨ConnState.error, j + 1, (List.range (j + 1)).map (fun k => d * (k + 1))⟩ = _
    rw [handleReconnection_sched ⟨maxA, d⟩ ConnState.error (j + 1) _ (by decide) hj]
    simp [List.range_succ]

theorem reconnect_trace_eq (maxA d : Nat) :
    reconnectAllFailTrace ⟨maxA, d⟩
      = ⟨ConnState.error, maxA, (List.range maxA).map (fun k => d * (k + 1))⟩ := by
  cases maxA with
  | zero =>
    show handleReconnection ⟨0, d⟩ ⟨ConnState.connected, 0, []⟩ = _
    rw [handleReconnection_exhausted ⟨0, d⟩ ConnState.connected 0 [] (by decide)
      (Nat.le_refl 0)]
    simp
  | succ m =>
    show failedReconnectRound ⟨m + 1, d⟩
      (iterRounds ⟨m + 1, d⟩
        (handleReconnection ⟨m + 1, d⟩ ⟨ConnState.connected, 0, []⟩) m) = _
    rw [iterRounds_inv (m + 1) d m (Nat.lt_succ_self m)]
    show handleReconnection ⟨m + 1, d⟩
      ⟨ConnState.error, m + 1, (List.range (m + 1)).map (fun k => d * (k + 1))⟩ = _
    rw [handleReconnection_exhausted ⟨m + 1, d⟩ ConnState.error (m + 1) _ (by decide)
      (Nat.le_refl (m + 1))]

/-- C5: with every reconnect attempt failing, attempt `k` is scheduled after a
delay of `reconnectDelay × k`; exactly `reconnectAttempts` attempts are
scheduled, with strictly increasing delays (for a positive delay); the client
then settles in terminal `ERROR`; and a further reconnection trigger in that
terminal state schedules nothing and stays in `ERROR` — only an external
`connect()` can try again. -/
theorem reconnect_linear_backoff (maxA d : Nat) (hd : 0 < d) :
    (reconnectAllFailTrace ⟨maxA, d⟩).scheduled
        = (List.range maxA).map (fun k => d * (k + 1))
  ∧ (reconnectAllFailTrace ⟨maxA, d⟩).scheduled.length = maxA
  ∧ (reconnectAllFailTrace ⟨maxA, d⟩).connState = ConnState.error
  ∧ (reconnectAllFailTrace ⟨maxA, d⟩).scheduled.Pairwise (· < ·)
  ∧ handleReconnection ⟨maxA, d⟩ (reconnectAllFailTrace ⟨maxA, d⟩)
      = reconnectAllFailTrace ⟨maxA, d⟩ := by
  rw [reconnect_trace_eq]
  refine ⟨rfl, by simp, rfl, ?_, ?_⟩
  · refine List.Pairwise.map _ (fun a b hab => ?_) (List.pairwise_lt_range maxA)
    exact mul_lt_mul_of_pos_left (by omega) hd
  · exact handleReconnection_exhausted ⟨maxA, d⟩ ConnState.error maxA _ (by decide)
      (Nat.le_refl maxA)

/-- Witness for C5 at the spec's test configuration `reconnectAttempts = 3`
with the default 5000 ms delay: delays 5000, 10000, 15000, then terminal
`ERROR`. -/
theorem reconnect_linear_backoff_witness :
    (reconnectAllFailTrace ⟨3, 5000⟩).scheduled = [5000, 10000, 15000]
  ∧ (reconnectAllFailTrace ⟨3, 5000⟩).connState = ConnState.error := by
  have h := reconnect_linear_backoff 3 5000 (by decide)
  exact ⟨h.1.trans (by decide), h.2.2.1⟩

/-- Counterexample for C7: `EnhancedMCPToolExecutor.initialize()` consults no
guard flag and stores no in-flight promise — with one startup server, a
second call entering while the first still awaits its connections spawns a
second connection attempt: two in total, not one. -/
theorem executor_init_unguarded :
    (initFinish (initFinish (initSpawn 1 (initSpawn 1 (0, false))))).1 = 2
  ∧ ¬ (initFinish (initFinish (initSpawn 1 (initSpawn 1 (0, false))))).1 = 1 := by
  decide

/-- C7 (amended): the registry/executor-level `initialize()` has no in-flight
guard — each call spawns one connection attempt per startup server
unconditionally — while the per-server socket connector's `ensureConnection`
does join an in-flight attempt: a second call finding the stored `connecting`
promise returns it unchanged, so two concurrent calls start exactly one
attempt. -/
theorem ensureConnection_joins_in_flight :
    (∀ s : EnsureState, s.connected = false → s.connecting = true →
        ensureConnection s = (s, EnsureOutcome.joinedInFlight))
  ∧ ((ensureConnection ⟨false, false, 0⟩).1.attemptsStarted = 1
      ∧ ensureConnection (ensureConnection ⟨false, false, 0⟩).1
          = ((ensureConnection ⟨false, false, 0⟩).1, EnsureOutcome.joinedInFlight))
  ∧ ∀ (n : Nat) (s : Nat × Bool), (initSpawn n s).1 = s.1 + n := by
  refine ⟨?_, by decide, fun n s => rfl⟩
  intro s h1 h2
  simp [ensureConnection, h1, h2]

/-- Witness for C7's amended statement: a connector with an in-flight promise
hands it back without a new attempt. -/
theorem ensureConnection_joins_in_flight_witness :
    ensureConnection ⟨false, true, 1⟩
      = (⟨false, true, 1⟩, EnsureOutcome.joinedInFlight) :=
  ensureConnection_joins_in_flight.1 ⟨false, true, 1⟩ rfl rfl

theorem refresh_fold_preserve (name : String) (tools : List MCPTool)
    (acc : String → Option ToolEntry) (k : String)
    (h : ∀ t ∈ tools, t.name ≠ k) :
    (tools.foldl (setTool name) acc) k = acc k := by
  induction tools generalizing acc with
  | nil => rfl
  | cons t ts ih =>
    rw [List.foldl_cons, ih _ (fun t' ht' => h t' (List.mem_cons_of_mem _ ht'))]
    simp [setTool, Ne.symm (h t (List.mem_cons_self _ _))]

theorem clearServer_preserve (name : String) (m : String → Option ToolEntry)
    (k : String) (e : ToolEntry) (hm : m k = some e)
    (hs : e.serverName ≠ name) : clearServer name m k = some e := by
  simp [clearServer, hm, hs]

/-- C8 (amended): `refreshTools(serverName)` leaves every entry owned by a
different server unchanged provided none of the refreshed server's new tool
names collides with that entry's name (on a collision `Map.set` overwrites the
other server's entry — see the counterexample); and when the server is
unhealthy or its listing fails, the whole map — in particular every other
server's slice — is untouched. -/
theorem refresh_preserves_other_servers :
    (∀ (name : String) (tools : List MCPTool) (m : String → Option ToolEntry)
        (k : String) (e : ToolEntry),
      m k = some e → e.serverName ≠ name → (∀ t ∈ tools, t.name ≠ k) →
      refreshServer name (RefreshOutcome.ok tools) m k = some e)
  ∧ (∀ (name : String) (m : String → Option ToolEntry),
      refreshServer name RefreshOutcome.unhealthy m = m)
  ∧ ∀ (name msg : String) (m : String → Option ToolEntry),
      refreshServer name (RefreshOutcome.listFailed msg) m = m := by
  refine ⟨?_, fun name m => rfl, fun name msg m => rfl⟩
  intro name tools m k e hm hs ht
  show (tools.foldl (setTool name) (clearServer name m)) k = some e
  rw [refresh_fold_preserve name tools _ k ht]
  exact clearServer_preserve name m k e hm hs

/-- Witness for C8's amended statement: refreshing server "A" with a
non-colliding tool list leaves server "B"'s entry intact. -/
theorem refresh_preserves_other_servers_witness :
    refreshServer "A" (RefreshOutcome.ok [⟨"maps_route", "from A", ""⟩])
      (fun k => if k = "maps_geo"
        then some ⟨⟨"maps_geo", "from B", ""⟩, "B"⟩ else none)
      "maps_geo" = some ⟨⟨"maps_geo", "from B", ""⟩, "B"⟩ :=
  refresh_preserves_other_servers.1 "A" [⟨"maps_route", "from A", ""⟩]
    (fun k => if k = "maps_geo"
      then some ⟨⟨"maps_geo", "from B", ""⟩, "B"⟩ else none)
    "maps_geo" ⟨⟨"maps_geo", "from B", ""⟩, "B"⟩ rfl (by decide) (by decide)

/-- Counterexample for C8 as stated: a name collision.  Server "B" owns the
entry "maps_geo"; refreshing server "A" whose new list also contains a tool
named "maps_geo" replaces B's entry with A's — the other server's entry is
altered. -/
theorem refresh_collision_overwrites :
    refreshServer "A" (RefreshOutcome.ok [⟨"maps_geo", "from A", ""⟩])
      (fun k => if k = "maps_geo"
        then some ⟨⟨"maps_geo", "from B", ""⟩, "B"⟩ else none)
      "maps_geo" = some ⟨⟨"maps_geo", "from A", ""⟩, "A"⟩
  ∧ ¬ refreshServer "A" (RefreshOutcome.ok [⟨"maps_geo", "from A", ""⟩])
      (fun k => if k = "maps_geo"
        then some ⟨⟨"maps_geo", "from B", ""⟩, "B"⟩ else none)
      "maps_geo" = some ⟨⟨"maps_geo", "from B", ""⟩, "B"⟩ := by
  constructor
  · rfl
  · intro h
    have := Option.some.inj h
    exact absurd (congrArg ToolEntry.serverName this) (by decide)

end Zhcj
